import Mathlib

/-!
Verification of the system-facts collector (`sys-info-linux.py`, `sys-info-win.py`).

The Python sources are shallowly embedded: every ambient OS input (file
contents, library calls, external commands) becomes an explicit parameter,
with `Option`/`Except` encoding "the read raised an exception".  Python
machine behaviour is modelled as follows:

* Python `int` is `Int` (arbitrary precision, like Python); `//` is floor
  division (`Int.fdiv`).
* Python floats are idealised as `ℚ`; the claims settled here depend only on
  list structure, exact decimal constants and monotonicity, which agree with
  IEEE semantics at every input used.
* `str.split()` (no argument) splits on whitespace runs discarding empties;
  `str.split(c, 1)` splits at the first occurrence; `str.strip(chars)`
  removes the given characters from both ends.  Each is defined below as a
  structurally recursive function so terms evaluate inside the kernel.
* Python's `float(...)` is modelled on plain decimal literals with optional
  sign (no exponents / inf / nan, which never occur in the fixtures used);
  `int(...)` on optionally signed digit strings.
* A `dict` built by repeated assignment is a `List (key × value)` in
  insertion order; lookup (`dictGet`) takes the *last* binding, matching
  assignment override.
-/

/-- Python `str.strip(chars)` on a character class: drop matching characters
from both ends of the list. -/
def pyStripCharsL (p : Char → Bool) (l : List Char) : List Char :=
  ((l.dropWhile p).reverse.dropWhile p).reverse

/-- Python `str.strip()` (whitespace form). -/
def pyStripWs (s : String) : String :=
  String.mk (pyStripCharsL Char.isWhitespace s.data)

/-- Accumulator loop for `splitWs`; `cur` holds the current token reversed. -/
def splitWsAux : List Char → List Char → List String
  | [], cur => if cur.isEmpty then [] else [String.mk cur.reverse]
  | c :: rest, cur =>
    if c.isWhitespace then
      if cur.isEmpty then splitWsAux rest []
      else String.mk cur.reverse :: splitWsAux rest []
    else splitWsAux rest (c :: cur)

/-- Python `str.split()` with no separator: whitespace runs, no empty parts. -/
def splitWs (s : String) : List String := splitWsAux s.data []

/-- Accumulator loop for `splitLines`. -/
def splitLinesAux : List Char → List Char → List String
  | [], cur => [String.mk cur.reverse]
  | c :: rest, cur =>
    if c = '\n' then String.mk cur.reverse :: splitLinesAux rest []
    else splitLinesAux rest (c :: cur)

/-- Python `content.split(chr(10))`: splits at every newline, keeping empty
parts (an empty string yields one empty part). -/
def splitLines (s : String) : List String := splitLinesAux s.data []

/-- Python `s.split(c, 1)` restricted to the case where `c` occurs: the part
before the first `c` and the part after it. -/
def splitOnceCh (c : Char) (l : List Char) : List Char × List Char :=
  (l.takeWhile (· != c), (l.dropWhile (· != c)).drop 1)

/-- Numeric value of a digit string (most significant first). -/
def digitsVal (l : List Char) : Nat :=
  l.foldl (fun a c => a * 10 + (c.toNat - 48)) 0

/-- Python `int(...)` on an optionally signed digit token; `none` models
`ValueError`. -/
def pyIntL : List Char → Option Int
  | '-' :: t => if t ≠ [] ∧ t.all Char.isDigit then some (-(digitsVal t : Int)) else none
  | '+' :: t => if t ≠ [] ∧ t.all Char.isDigit then some ((digitsVal t : Int)) else none
  | l => if l ≠ [] ∧ l.all Char.isDigit then some ((digitsVal l : Int)) else none

/-- Python `int(...)` on a `String` token. -/
def pyInt (s : String) : Option Int := pyIntL s.data

/-- Unsigned part of Python `float(...)`: digits with at most one dot. -/
def pyFloatMag (l : List Char) : Option ℚ :=
  if '.' ∈ l then
    let ip := l.takeWhile (· != '.')
    let fp := (l.dropWhile (· != '.')).drop 1
    if (ip ++ fp) ≠ [] ∧ ip.all Char.isDigit ∧ fp.all Char.isDigit then
      some ((digitsVal ip : ℚ) + (digitsVal fp : ℚ) / (10 : ℚ) ^ fp.length)
    else none
  else if l ≠ [] ∧ l.all Char.isDigit then some ((digitsVal l : ℚ)) else none

/-- Python `float(...)` on a plain decimal token; `none` models `ValueError`. -/
def pyFloatL : List Char → Option ℚ
  | '-' :: t => (pyFloatMag t).map (fun q => -q)
  | '+' :: t => pyFloatMag t
  | l => pyFloatMag l

/-- Python `float(...)` on a `String` token. -/
def pyFloat (s : String) : Option ℚ := pyFloatL s.data

/-- Lookup in a dict represented as its assignment sequence: the *last*
binding of the key wins, as with repeated `d[k] = v`. -/
def dictGet {κ α : Type} [DecidableEq κ] (m : List (κ × α)) (k : κ) : Option α :=
  m.foldl (fun acc p => if p.1 = k then some p.2 else acc) none

/-- The list comprehension `[float(x) for x in toks]`: `none` models a
`ValueError` aborting the whole comprehension. -/
def floatsOf : List String → Option (List ℚ)
  | [] => some []
  | x :: xs =>
    match pyFloat x with
    | none => none
    | some y =>
      match floatsOf xs with
      | none => none
      | some ys => some (y :: ys)

namespace Linux

/-- `get_load_average` (sys-info-linux.py lines 64-74).  `loadavg` is the
content of `/proc/loadavg`, `none` meaning the `open` raised.  The body takes
the first three whitespace fields of the stripped content and parses each as a
float; any exception yields `[0.0, 0.0, 0.0]`. -/
def get_load_average (loadavg : Option String) : List ℚ :=
  match loadavg with
  | none => [0, 0, 0]
  | some s =>
    match floatsOf ((splitWs (pyStripWs s)).take 3) with
    | some l => l
    | none => [0, 0, 0]

/-- The reporter's access `(load_avg[0], load_avg[1], load_avg[2])` in `main`
(sys-info-linux.py line 225).  `none` models the uncaught `IndexError` (and
hence a non-zero process exit) raised when the list has fewer than three
elements. -/
def loadAvgTriple (l : List ℚ) : Option (ℚ × ℚ × ℚ) :=
  match l with
  | a :: b :: c :: _ => some (a, b, c)
  | _ => none

/-- Loop body of `get_memory_info` (sys-info-linux.py lines 50-56): lines
without a colon are skipped; otherwise split at the first colon, take the
first whitespace token of the value and parse it as an int, storing under the
stripped key.  A missing token (`IndexError`) or failed parse (`ValueError`)
raises, and the partially built dict is what `get_memory_info` returns. -/
def meminfoGo : List String → List (String × Int) → List (String × Int)
  | [], acc => acc
  | line :: rest, acc =>
    if ':' ∈ line.data then
      match splitWs (pyStripWs (String.mk (splitOnceCh ':' line.data).2)) with
      | [] => acc
      | tok :: _ =>
        match pyInt tok with
        | none => acc
        | some n =>
          meminfoGo rest (acc ++ [(pyStripWs (String.mk (splitOnceCh ':' line.data).1), n)])
    else meminfoGo rest acc

/-- `get_memory_info` (sys-info-linux.py lines 45-61).  `meminfo` is the line
list of `/proc/meminfo`, `none` meaning the file was unreadable (yielding an
empty mapping). -/
def get_memory_info (meminfo : Option (List String)) : List (String × Int) :=
  match meminfo with
  | none => []
  | some lines => meminfoGo lines []

/-- The RAM report of `main` (sys-info-linux.py lines 182-196).  `psutilMem`
is `psutil.virtual_memory()` as `(total, available)` in bytes, `none` meaning
the `import psutil` fallback raised `ImportError`. -/
def ramLine (meminfo : Option (List String)) (psutilMem : Option (Int × Int)) : String :=
  let mem := get_memory_info meminfo
  let memTotal := (dictGet mem "MemTotal").getD 0
  let memAvailable := (dictGet mem "MemAvailable").getD ((dictGet mem "MemFree").getD 0)
  if 0 < memTotal then
    "RAM: " ++ toString (Int.fdiv memAvailable 1024) ++ "MB free / " ++
      toString (Int.fdiv memTotal 1024) ++ "MB total"
  else
    match psutilMem with
    | some p =>
      "RAM: " ++ toString (Int.fdiv p.2 (1024 * 1024)) ++ "MB free / " ++
        toString (Int.fdiv p.1 (1024 * 1024)) ++ "MB total"
    | none => "RAM: Information not available"

end Linux

/-- Round-half-to-even to an integer, the rounding Python's `round` uses
(idealised over ℚ). -/
def rhe (q : ℚ) : ℤ :=
  if q - ⌊q⌋ < 1/2 then ⌊q⌋
  else if 1/2 < q - ⌊q⌋ then ⌊q⌋ + 1
  else if Even ⌊q⌋ then ⌊q⌋ else ⌊q⌋ + 1

/-- Python `round(x, 1)`: round-half-to-even at one decimal place. -/
def pyRound1 (q : ℚ) : ℚ := (rhe (10 * q) : ℚ) / 10

namespace Linux

/-- Loop body of the `/etc/os-release` parse in `get_os_info`
(sys-info-linux.py lines 20-24): lines containing `=` are split at the first
`=`; the value has double quotes stripped from both ends (`value.strip` with
a quote argument); the pair is assigned into the dict in order. -/
def parseOsReleaseGo : List String → List (String × String) → List (String × String)
  | [], acc => acc
  | line :: rest, acc =>
    if '=' ∈ line.data then
      parseOsReleaseGo rest
        (acc ++ [(String.mk (splitOnceCh '=' line.data).1,
                  String.mk (pyStripCharsL (· = '"') (splitOnceCh '=' line.data).2))])
    else parseOsReleaseGo rest acc

/-- `content.split` on newlines followed by the key=value parse loop. -/
def parseOsRelease (content : String) : List (String × String) :=
  parseOsReleaseGo (splitLines content) []

/-- The `lsb_release -d` fallback of `get_os_info` (sys-info-linux.py lines
34-37 plus the surrounding `except`): `lsb` is `(returncode, stdout)` of the
subprocess, `none` meaning `subprocess.run` itself raised (command absent).
On return code 0 the text after the first colon of stdout is stripped and
returned; a missing colon raises `IndexError`, which the enclosing `except`
turns into the final `"Unknown"`. -/
def lsbFallback : Option (Int × String) → String
  | none => "Unknown"
  | some rcOut =>
    if rcOut.1 = 0 then
      if ':' ∈ rcOut.2.data then
        String.mk (pyStripCharsL Char.isWhitespace (splitOnceCh ':' rcOut.2.data).2)
      else "Unknown"
    else "Unknown"

/-- `get_os_info` (sys-info-linux.py lines 10-42).  `osRelease` is the
content of `/etc/os-release`, `none` meaning the file does not exist (the
`Path.exists` guard), in which case control falls through to the
`lsb_release` fallback.  Preference order: `PRETTY_NAME`, then
`NAME + " " + VERSION`, then the external command, then `"Unknown"`. -/
def get_os_info (osRelease : Option String) (lsb : Option (Int × String)) : String :=
  match osRelease with
  | some content =>
    match dictGet (parseOsRelease content) "PRETTY_NAME" with
    | some v => v
    | none =>
      match dictGet (parseOsRelease content) "NAME",
            dictGet (parseOsRelease content) "VERSION" with
      | some n, some ver => n ++ " " ++ ver
      | _, _ => lsbFallback lsb
  | none => lsbFallback lsb

/-- The fixed exclusion list of pseudo/virtual filesystem types
(sys-info-linux.py lines 90-95). -/
def special_fs : List String :=
  ["proc", "sysfs", "devtmpfs", "devpts", "tmpfs", "cgroup",
   "securityfs", "configfs", "debugfs", "tracefs", "pstore",
   "efivarfs", "mqueue", "hugetlbfs", "fusectl", "fuse.gvfsd-fuse",
   "autofs", "binfmt_misc", "nsfs", "bpf", "iso9660"]

/-- One emitted drive record (sys-info-linux.py lines 117-122). -/
structure DiskEntry where
  mount_point : String
  fs_type : String
  total_gb : ℚ
  free_gb : ℚ
deriving DecidableEq

/-- Loop body of `get_disk_info` (sys-info-linux.py lines 83-125) for one
`/proc/mounts` line.  `statvfs` abstracts `os.statvfs` as a map from mount
point to `(f_blocks, f_frsize, f_bfree)`, `none` modelling the per-mount
exception that skips the entry.  Lines with fewer than 4 fields are skipped;
then the filesystem-type and device-prefix filters apply; then sizes in GB
are computed and entries with total below 0.1 GB are dropped; survivors are
emitted with both sizes rounded to one decimal. -/
def processMountLine (statvfs : String → Option (Nat × Nat × Nat)) (line : String) :
    Option DiskEntry :=
  let parts := splitWs line
  if 4 ≤ parts.length then
    let device := parts.getD 0 ""
    let mount_point := parts.getD 1 ""
    let fs_type := parts.getD 2 ""
    if fs_type ∈ special_fs then none
    else if "/dev/loop".data.isPrefixOf device.data
         || "udev".data.isPrefixOf device.data
         || "none".data.isPrefixOf device.data then none
    else
      match statvfs mount_point with
      | none => none
      | some stat =>
        let total_gb : ℚ := ((stat.1 * stat.2.1 : Nat) : ℚ) / (1024 ^ 3 : ℚ)
        let free_gb : ℚ := ((stat.2.2 * stat.2.1 : Nat) : ℚ) / (1024 ^ 3 : ℚ)
        if total_gb < 1/10 then none
        else some ⟨mount_point, fs_type, pyRound1 total_gb, pyRound1 free_gb⟩
  else none

/-- `get_disk_info` (sys-info-linux.py lines 77-130).  `mounts` is the line
list of `/proc/mounts`, `none` meaning the read failed (empty result). -/
def get_disk_info (mounts : Option (List String))
    (statvfs : String → Option (Nat × Nat × Nat)) : List DiskEntry :=
  match mounts with
  | none => []
  | some lines => lines.filterMap (processMountLine statvfs)

/-- The summation loop of `get_swap_info` (sys-info-linux.py lines 143-146):
over all lines after the header, lines with at least 4 whitespace fields
contribute `int(parts[2])` to the total; a failed parse raises (`none`),
sending the whole probe to its `except` branch. -/
def sumCol3 (lines : List String) : Option Int :=
  lines.foldlM
    (fun acc line =>
      if 4 ≤ (splitWs line).length then
        (pyInt ((splitWs line).getD 2 "")).map (fun n => acc + n)
      else some acc)
    0

/-- `get_swap_info` (sys-info-linux.py lines 133-155).  `swaps` is the line
list of `/proc/swaps` (`none` = unreadable, giving `(0, 0)`); `meminfo` is
the ambient `/proc/meminfo` that the nested `get_memory_info()` call reads.
Free swap is the mapping's `SwapFree`, defaulting to 0. -/
def get_swap_info (swaps : Option (List String)) (meminfo : Option (List String)) :
    Int × Int :=
  match swaps with
  | none => (0, 0)
  | some lines =>
    match sumCol3 (lines.drop 1) with
    | none => (0, 0)
    | some total => (total, (dictGet (get_memory_info meminfo) "SwapFree").getD 0)

end Linux

namespace Win

/-- Python `release.lower()` (ASCII model, enough for Windows release
strings). -/
def toLowerStr (s : String) : String := String.mk (s.data.map Char.toLower)

/-- Python `key in release`: substring containment. -/
def containsSub (needle hay : String) : Bool :=
  hay.data.tails.any (fun t => needle.data.isPrefixOf t)

/-- The `version_map` dict of `get_windows_version` (sys-info-win.py lines
19-24), in insertion order: `"10"` is checked before the other entries. -/
def version_map : List (String × String) :=
  [("10", "Windows 10 or Greater"),
   ("8", "Windows 8"),
   ("7", "Windows 7"),
   ("vista", "Windows Vista")]

/-- `get_windows_version` (sys-info-win.py lines 7-36).  `info` bundles the
`platform.system()/.version()/.release()` calls as
`(system, release, version)`; `.error e` models a raised
`OSError`/`ValueError`/`AttributeError` with message `e`. -/
def get_windows_version (info : Except String (String × String × String)) : String :=
  match info with
  | .error e => "Unknown (Error: " ++ e ++ ")"
  | .ok sysRelVer =>
    if sysRelVer.1 = "Windows" then
      match version_map.find?
          (fun kv => containsSub kv.1 (toLowerStr sysRelVer.2.1)) with
      | some kv => kv.2
      | none => "Windows " ++ sysRelVer.2.1 ++ " (" ++ sysRelVer.2.2 ++ ")"
    else "Not Windows"

/-- `get_processor_count` (sys-info-win.py lines 97-107).  `phys` is
`psutil.cpu_count(logical=False)` and `logical` is `os.cpu_count()`: `.ok v`
is a normal return (`none` = Python `None`, no usable count), `.error` a
raised exception.  The second component of the result records whether the
`os.cpu_count` fallback was evaluated: Python's `x or 0` turns a `None` (or
0) return into 0 *without* entering the `except` fallback, which runs only
when the first call raises. -/
def get_processor_count (phys logical : Except Unit (Option Nat)) : Nat × Bool :=
  match phys with
  | .ok v => (v.getD 0, false)
  | .error _ =>
    match logical with
    | .ok v => (v.getD 0, true)
    | .error _ => (0, true)

/-- `get_virtual_memory_size` (sys-info-win.py lines 147-159).  `mem` and
`swap` are the `total` fields (bytes) of `psutil.virtual_memory()` and
`psutil.swap_memory()`; an exception in either yields 0. -/
def get_virtual_memory_size (mem swap : Except Unit Nat) : Nat :=
  match mem, swap with
  | .ok m, .ok s => (m + s) / (1024 * 1024)
  | _, _ => 0

/-- The `Virtual Memory` line printed by `main` (sys-info-win.py line 188). -/
def virtualMemoryLine (mem swap : Except Unit Nat) : String :=
  "Virtual Memory: " ++ toString (get_virtual_memory_size mem swap) ++ "MB"

end Win

/-- Spec-side notion for the OS-identity claim: the value "verbatim with
surrounding double quotes stripped" — one leading and one trailing quote
removed when both are present, the value untouched otherwise. -/
def specStripQuotes (v : List Char) : List Char :=
  match v with
  | '"' :: rest => if rest.getLast? = some '"' then rest.dropLast else v
  | _ => v

/-- A well-formed os-release value: either bare (no double quote at either
end) or wrapped in exactly one pair of double quotes whose inside has no
double quote at either end. -/
def WfValue (v : List Char) : Prop :=
  (v.head? ≠ some '"' ∧ v.getLast? ≠ some '"')
  ∨ (2 ≤ v.length ∧ v.head? = some '"' ∧ v.getLast? = some '"'
      ∧ (v.drop 1).dropLast.head? ≠ some '"'
      ∧ (v.drop 1).dropLast.getLast? ≠ some '"')

instance (v : List Char) : Decidable (WfValue v) := by
  unfold WfValue
  infer_instance

lemma string_data_append (a b : String) : (a ++ b).data = a.data ++ b.data := rfl

lemma vmLine_getLast (t : String) :
    ("Virtual Memory: " ++ t ++ "MB").data.getLast? = some 'B' := by
  rw [string_data_append, List.getLast?_append,
    show ("MB").data.getLast? = some 'B' from rfl, Option.or_some]

lemma floatsOf_length : ∀ {ts : List String} {l : List ℚ},
    floatsOf ts = some l → l.length = ts.length := by
  intro ts
  induction ts with
  | nil =>
    intro l h
    simp only [floatsOf, Option.some.injEq] at h
    subst h; rfl
  | cons x xs ih =>
    intro l h
    simp only [floatsOf] at h
    cases hx : pyFloat x with
    | none => rw [hx] at h; cases h
    | some y =>
      rw [hx] at h
      cases hxs : floatsOf xs with
      | none => rw [hxs] at h; cases h
      | some ys =>
        rw [hxs] at h
        cases h
        simp [ih hxs]

/-- Claim C1 (code_bug evidence): on a readable `/proc/loadavg` holding only
two fields, `get_load_average` returns a two-element list without raising,
and `main`'s load-average formatting (`load_avg[2]`) then raises an uncaught
`IndexError`, so the process does not exit with status 0. -/
theorem c1_main_crashes_on_short_loadavg :
    Linux.get_load_average (some "0.5 0.3") = [(1 : ℚ)/2, (3 : ℚ)/10]
    ∧ Linux.loadAvgTriple (Linux.get_load_average (some "0.5 0.3")) = none := by
  with_unfolding_all decide

/-- Claim C3 counterexample: a readable source with a single parseable field
makes the load-average probe return a one-element list — not a three-element
list, and not `[0.0, 0.0, 0.0]` — refuting the claim for the
fewer-than-3-fields case. -/
theorem c3_short_loadavg_cex :
    Linux.get_load_average (some "0.5") = [(1 : ℚ)/2]
    ∧ Linux.get_load_average (some "0.5") ≠ [0, 0, 0]
    ∧ (Linux.get_load_average (some "0.5")).length ≠ 3 := by
  with_unfolding_all decide

/-- Claim C3 as amended: on a missing file, or when one of the first three
fields fails to parse as a float, the probe returns `[0.0, 0.0, 0.0]`; on a
source whose first three fields parse it returns exactly those three samples
in order; in general a successful parse returns the first `min 3 n` parsed
fields (so fewer than three fields yield a list shorter than three, not the
zero default). -/
theorem c3_load_average_amended :
    Linux.get_load_average none = [0, 0, 0]
    ∧ (∀ s : String, floatsOf ((splitWs (pyStripWs s)).take 3) = none →
        Linux.get_load_average (some s) = [0, 0, 0])
    ∧ (∀ (s : String) (l : List ℚ), floatsOf ((splitWs (pyStripWs s)).take 3) = some l →
        Linux.get_load_average (some s) = l
        ∧ l.length = min 3 (splitWs (pyStripWs s)).length)
    ∧ (∀ (s t1 t2 t3 : String) (rest : List String) (a b c : ℚ),
        splitWs (pyStripWs s) = t1 :: t2 :: t3 :: rest →
        pyFloat t1 = some a → pyFloat t2 = some b → pyFloat t3 = some c →
        Linux.get_load_average (some s) = [a, b, c]) := by
  refine ⟨rfl, ?_, ?_, ?_⟩
  · intro s h
    simp [Linux.get_load_average, h]
  · intro s l h
    refine ⟨by simp [Linux.get_load_average, h], ?_⟩
    rw [floatsOf_length h, List.length_take]
  · intro s t1 t2 t3 rest a b c hsplit h1 h2 h3
    simp [Linux.get_load_average, hsplit, floatsOf, h1, h2, h3]

/-- Claim C3 witness: the spec's own example input yields the three parsed
samples. -/
theorem c3_load_average_amended_witness :
    Linux.get_load_average (some "0.10 0.20 0.30 1/200 1234")
      = [(1 : ℚ)/10, (1 : ℚ)/5, (3 : ℚ)/10] :=
  c3_load_average_amended.2.2.2 "0.10 0.20 0.30 1/200 1234" "0.10" "0.20" "0.30"
    ["1/200", "1234"] ((1 : ℚ)/10) ((1 : ℚ)/5) ((3 : ℚ)/10)
    (by decide) (by with_unfolding_all decide)
    (by with_unfolding_all decide) (by with_unfolding_all decide)

/-- Claim C7 counterexample: when the physical-core query returns no usable
count (Python `None`) while the OS-level logical query would succeed with 8,
the probe returns 0 *without* evaluating the logical fallback (second
component `false`), because `psutil.cpu_count(logical=False) or 0` converts
`None` to 0 inside the `try` block. -/
theorem c7_phys_none_skips_fallback_cex :
    Win.get_processor_count (.ok none) (.ok (some 8)) = (0, false) := rfl

/-- Claim C7 as amended: the logical-count fallback is evaluated exactly when
the physical-core query *raises*; a physical query that returns normally —
even returning no usable count — yields `count or 0` directly, and after an
exception the result is the logical count (or 0 when it too is unusable or
raises). -/
theorem c7_processor_count_amended :
    ∀ (l : Except Unit (Option Nat)) (v : Option Nat),
      Win.get_processor_count (.ok v) l = (v.getD 0, false)
      ∧ Win.get_processor_count (.error ()) (.ok v) = (v.getD 0, true)
      ∧ Win.get_processor_count (.error ()) (.error ()) = (0, true) := by
  intro l v
  exact ⟨rfl, rfl, rfl⟩

/-- Claim C10: the Windows virtual-memory-size probe returns
`(memory.total + swap.total) // 2^20` on success and 0 on failure of either
query, and the printed `Virtual Memory` line is always a number followed by
`MB`, never the `information not available` text. -/
theorem c10_virtual_memory :
    ∀ (mem swap : Except Unit Nat) (m s : Nat),
      Win.get_virtual_memory_size (.ok m) (.ok s) = (m + s) / 2 ^ 20
      ∧ Win.get_virtual_memory_size (.error ()) swap = 0
      ∧ Win.get_virtual_memory_size mem (.error ()) = 0
      ∧ Win.virtualMemoryLine mem swap
          = "Virtual Memory: " ++ toString (Win.get_virtual_memory_size mem swap) ++ "MB"
      ∧ Win.virtualMemoryLine mem swap ≠ "Virtual Memory: information not available" := by
  intro mem swap m s
  refine ⟨by norm_num [Win.get_virtual_memory_size], ?_, ?_, rfl, ?_⟩
  · cases swap <;> rfl
  · cases mem <;> rfl
  · intro h
    have h2 : ("Virtual Memory: " ++ toString (Win.get_virtual_memory_size mem swap)
          ++ "MB").data.getLast?
        = ("Virtual Memory: information not available").data.getLast? := by
      rw [← h]; rfl
    rw [vmLine_getLast] at h2
    exact absurd h2 (by decide)

/-- Claim C2: whenever the parsed `/proc/meminfo` mapping binds `MemTotal` to
16000000 and `MemAvailable` to 8000000 (kilobytes), the reporter's RAM line
is exactly `RAM: 7812MB free / 15625MB total` (kB floor-divided by 1024,
`MemAvailable` as the free figure). -/
theorem c2_ram_line_exact (meminfo : List String) (psutilMem : Option (Int × Int))
    (ht : dictGet (Linux.get_memory_info (some meminfo)) "MemTotal" = some 16000000)
    (ha : dictGet (Linux.get_memory_info (some meminfo)) "MemAvailable" = some 8000000) :
    Linux.ramLine (some meminfo) psutilMem = "RAM: 7812MB free / 15625MB total" := by
  simp only [Linux.ramLine, ht, ha, Option.getD_some]
  norm_num
  decide

/-- Claim C2 witness: a synthetic `/proc/meminfo` with those counters
produces exactly the claimed line. -/
theorem c2_ram_line_exact_witness :
    Linux.ramLine (some ["MemTotal: 16000000 kB", "MemAvailable: 8000000 kB"]) none
      = "RAM: 7812MB free / 15625MB total" :=
  c2_ram_line_exact _ none (by decide) (by decide)

lemma sumCol3_forall2 {lines : List String} {ks : List Int}
    (h : List.Forall₂
      (fun line k => 4 ≤ (splitWs line).length
        ∧ pyInt ((splitWs line).getD 2 "") = some k) lines ks) :
    Linux.sumCol3 lines = some ks.sum := by
  have main : ∀ acc : Int,
      lines.foldlM
        (fun acc line =>
          if 4 ≤ (splitWs line).length then
            (pyInt ((splitWs line).getD 2 "")).map (fun n => acc + n)
          else some acc)
        acc = some (acc + ks.sum) := by
    induction h with
    | nil => intro acc; simp
    | cons hab hrest ih =>
      intro acc
      rw [List.foldlM_cons, if_pos hab.1, hab.2]
      simp only [Option.map_some', Option.bind_eq_bind, Option.some_bind]
      rw [ih]
      simp [add_assoc]
  simpa [Linux.sumCol3] using main 0

/-- Claim C6: the Linux swap probe's total is the sum of the third-column
values across all non-header lines of the swap table (each such line having
at least four fields with a parseable size column); its free figure is the
memory mapping's `SwapFree` value, or 0 when that key is absent; and when
the table is unreadable the result is `(0, 0)`.  With no swap partitions the
non-header portion is empty, so the total is the empty sum 0. -/
theorem c6_swap_info :
    (∀ meminfo, Linux.get_swap_info none meminfo = (0, 0))
    ∧ (∀ (lines : List String) (meminfo : Option (List String)) (ks : List Int),
        List.Forall₂
          (fun line k => 4 ≤ (splitWs line).length
            ∧ pyInt ((splitWs line).getD 2 "") = some k)
          (lines.drop 1) ks →
        (Linux.get_swap_info (some lines) meminfo).1 = ks.sum
        ∧ (∀ v : Int, dictGet (Linux.get_memory_info meminfo) "SwapFree" = some v →
            (Linux.get_swap_info (some lines) meminfo).2 = v)
        ∧ (dictGet (Linux.get_memory_info meminfo) "SwapFree" = none →
            (Linux.get_swap_info (some lines) meminfo).2 = 0)) := by
  constructor
  · intro meminfo; rfl
  · intro lines meminfo ks h
    have hs : Linux.sumCol3 (lines.drop 1) = some ks.sum := sumCol3_forall2 h
    rw [List.drop_one] at hs
    refine ⟨by simp [Linux.get_swap_info, hs], ?_, ?_⟩
    · intro v hv
      simp [Linux.get_swap_info, hs, hv]
    · intro hn
      simp [Linux.get_swap_info, hs, hn]

/-- Claim C6 witness: a one-partition swap table sums to that partition's
size column, and the free figure is read from the memory mapping. -/
theorem c6_swap_info_witness :
    Linux.get_swap_info
        (some ["Filename Type Size Used Priority", "/dev/sda2 partition 1048572 0 -2"])
        (some ["SwapFree: 1048572 kB"])
      = (1048572, 1048572) := by
  have h := c6_swap_info.2
    ["Filename Type Size Used Priority", "/dev/sda2 partition 1048572 0 -2"]
    (some ["SwapFree: 1048572 kB"]) [1048572]
    (List.Forall₂.cons ⟨by decide, by decide⟩ List.Forall₂.nil)
  refine Prod.ext ?_ ?_
  · rw [h.1]; decide
  · exact h.2.1 1048572 (by decide)

/-- Claim C8: the Windows OS-version probe returns the error-annotated
unknown string on a recognized raised error; `Not Windows` on a non-Windows
platform; `Windows 10 or Greater` whenever `10` occurs in the lowercased
release (the `10` table entry is checked before all others); and the
synthesized `Windows <release> (<version>)` when no table entry matches. -/
theorem c8_windows_version :
    ∀ (release version e sys : String),
      Win.get_windows_version (.error e) = "Unknown (Error: " ++ e ++ ")"
      ∧ (sys ≠ "Windows" →
          Win.get_windows_version (.ok (sys, release, version)) = "Not Windows")
      ∧ (Win.containsSub "10" (Win.toLowerStr release) = true →
          Win.get_windows_version (.ok ("Windows", release, version))
            = "Windows 10 or Greater")
      ∧ ((∀ kv ∈ Win.version_map, Win.containsSub kv.1 (Win.toLowerStr release) = false) →
          Win.get_windows_version (.ok ("Windows", release, version))
            = "Windows " ++ release ++ " (" ++ version ++ ")") := by
  intro release version e sys
  refine ⟨rfl, ?_, ?_, ?_⟩
  · intro h
    simp [Win.get_windows_version, h]
  · intro h
    simp [Win.get_windows_version, Win.version_map, List.find?, h]
  · intro h
    have h10 := h ("10", "Windows 10 or Greater") (by simp [Win.version_map])
    have h8 := h ("8", "Windows 8") (by simp [Win.version_map])
    have h7 := h ("7", "Windows 7") (by simp [Win.version_map])
    have hv := h ("vista", "Windows Vista") (by simp [Win.version_map])
    simp [Win.get_windows_version, Win.version_map, List.find?, h10, h8, h7, hv]

lemma le_rhe (q : ℚ) : ⌊q⌋ ≤ rhe q := by
  unfold rhe
  split_ifs <;> omega

lemma rhe_le (q : ℚ) : rhe q ≤ ⌊q⌋ + 1 := by
  unfold rhe
  split_ifs <;> omega

lemma rhe_mono {a b : ℚ} (hab : a ≤ b) : rhe a ≤ rhe b := by
  rcases lt_or_eq_of_le (Int.floor_mono hab) with hlt | heq
  · calc rhe a ≤ ⌊a⌋ + 1 := rhe_le a
      _ ≤ ⌊b⌋ := by omega
      _ ≤ rhe b := le_rhe b
  · unfold rhe
    rw [← heq]
    have hfl : (⌊a⌋ : ℚ) ≤ a := Int.floor_le a
    split_ifs <;> first | omega | linarith

lemma pyRound1_mono {a b : ℚ} (hab : a ≤ b) : pyRound1 a ≤ pyRound1 b := by
  unfold pyRound1
  have h : ((rhe (10 * a) : ℚ)) ≤ ((rhe (10 * b) : ℚ)) := by
    exact_mod_cast rhe_mono (by linarith : (10 : ℚ) * a ≤ 10 * b)
  linarith

/-- Claim C9: every entry emitted by the Linux disk-usage probe reports
`free_gb ≤ total_gb`, given the `statvfs` guarantee that free blocks never
exceed total blocks; the inequality survives the one-decimal rounding
applied to both stored values because round-half-even is monotone. -/
theorem c9_free_le_total (mounts : List String) (sv : String → Option (Nat × Nat × Nat))
    (h : ∀ (mp : String) (b fr bf : Nat), sv mp = some (b, fr, bf) → bf ≤ b) :
    ∀ e ∈ Linux.get_disk_info (some mounts) sv, e.free_gb ≤ e.total_gb := by
  intro e he
  simp only [Linux.get_disk_info, List.mem_filterMap] at he
  obtain ⟨line, _, hline⟩ := he
  simp only [Linux.processMountLine] at hline
  split at hline
  case isFalse => exact absurd hline (by simp)
  split at hline
  case isTrue => exact absurd hline (by simp)
  split at hline
  case isTrue => exact absurd hline (by simp)
  split at hline
  case h_1 => exact absurd hline (by simp)
  case h_2 stat hsv =>
    split at hline
    case isTrue => exact absurd hline (by simp)
    case isFalse =>
      obtain ⟨b, fr, bf⟩ := stat
      have hble : bf ≤ b := h _ b fr bf hsv
      have hdiv : ((bf * fr : Nat) : ℚ) / (1024 ^ 3 : ℚ)
          ≤ ((b * fr : Nat) : ℚ) / (1024 ^ 3 : ℚ) := by
        have : ((bf * fr : Nat) : ℚ) ≤ ((b * fr : Nat) : ℚ) := by
          exact_mod_cast Nat.mul_le_mul_right fr hble
        have hpos : (0 : ℚ) ≤ (1024 ^ 3 : ℚ) := by norm_num
        exact div_le_div_of_nonneg_right this hpos
      rw [← Option.some.injEq] at hline
      cases hline
      exact pyRound1_mono hdiv

/-- Claim C9 witness: a concrete mount table and statvfs oracle produce
entries all satisfying the inequality. -/
theorem c9_free_le_total_witness :
    List.Forall (fun e : Linux.DiskEntry => e.free_gb ≤ e.total_gb)
      (Linux.get_disk_info (some ["/dev/sda1 / ext4 rw 0 0"])
        (fun _ => some (26214400, 4096, 131072))) :=
  List.forall_iff_forall_mem.2
    (c9_free_le_total ["/dev/sda1 / ext4 rw 0 0"] (fun _ => some (26214400, 4096, 131072))
      (by
        intro mp b fr bf hsv
        simp only [Option.some.injEq, Prod.mk.injEq] at hsv
        omega))

lemma dropWhile_head_false {p : Char → Bool} : ∀ {l : List Char},
    (∀ x, l.head? = some x → p x = false) → l.dropWhile p = l := by
  intro l h
  cases l with
  | nil => rfl
  | cons a t => rw [List.dropWhile_cons, if_neg (by simp [h a rfl])]

lemma takeWhile_append_stop (c : Char) : ∀ (k v : List Char), c ∉ k →
    (k ++ c :: v).takeWhile (· != c) = k := by
  intro k
  induction k with
  | nil =>
    intro v _
    simp [List.takeWhile_cons]
  | cons a k' ih =>
    intro v hk
    rw [List.mem_cons, not_or] at hk
    rw [List.cons_append, List.takeWhile_cons, if_pos (bne_iff_ne.mpr (Ne.symm hk.1))]
    exact congrArg (a :: ·) (ih v hk.2)

lemma dropWhile_append_stop (c : Char) : ∀ (k v : List Char), c ∉ k →
    (k ++ c :: v).dropWhile (· != c) = c :: v := by
  intro k
  induction k with
  | nil =>
    intro v _
    simp [List.dropWhile_cons]
  | cons a k' ih =>
    intro v hk
    rw [List.mem_cons, not_or] at hk
    rw [List.cons_append, List.dropWhile_cons, if_pos (bne_iff_ne.mpr (Ne.symm hk.1))]
    exact ih v hk.2

lemma splitOnceCh_append (c : Char) (k v : List Char) (hk : c ∉ k) :
    splitOnceCh c (k ++ c :: v) = (k, v) := by
  unfold splitOnceCh
  rw [takeWhile_append_stop c k v hk, dropWhile_append_stop c k v hk]
  simp

lemma parseOsReleaseGo_spec : ∀ (kvs : List (List Char × List Char))
    (acc : List (String × String)), (∀ p ∈ kvs, '=' ∉ p.1) →
    Linux.parseOsReleaseGo (kvs.map (fun p => String.mk (p.1 ++ '=' :: p.2))) acc
      = acc ++ kvs.map (fun p =>
          (String.mk p.1, String.mk (pyStripCharsL (· = '"') p.2))) := by
  intro kvs
  induction kvs with
  | nil =>
    intro acc _
    simp [Linux.parseOsReleaseGo]
  | cons p ps ih =>
    intro acc hk
    have hp1 : '=' ∉ p.1 := hk p (List.mem_cons_self p ps)
    rw [List.map_cons, Linux.parseOsReleaseGo, if_pos (by simp : '=' ∈ (String.mk (p.1 ++ '=' :: p.2)).data)]
    rw [show (String.mk (p.1 ++ '=' :: p.2)).data = p.1 ++ '=' :: p.2 from rfl,
      splitOnceCh_append '=' p.1 p.2 hp1]
    rw [ih _ (fun q hq => hk q (List.mem_cons_of_mem p hq))]
    simp

lemma parseOsRelease_eq (content : String) (kvs : List (List Char × List Char))
    (hsplit : splitLines content = kvs.map (fun p => String.mk (p.1 ++ '=' :: p.2)))
    (hkeys : ∀ p ∈ kvs, '=' ∉ p.1) :
    Linux.parseOsRelease content
      = kvs.map (fun p => (String.mk p.1, String.mk (pyStripCharsL (· = '"') p.2))) := by
  unfold Linux.parseOsRelease
  rw [hsplit, parseOsReleaseGo_spec kvs [] hkeys, List.nil_append]

lemma dictGet_map_mk (kvs : List (List Char × List Char)) (key : String) :
    dictGet (kvs.map (fun p =>
        (String.mk p.1, String.mk (pyStripCharsL (· = '"') p.2)))) key
      = (dictGet kvs key.data).map (fun v => String.mk (pyStripCharsL (· = '"') v)) := by
  unfold dictGet
  suffices h : ∀ acc : Option (List Char),
      (kvs.map (fun p => (String.mk p.1, String.mk (pyStripCharsL (· = '"') p.2)))).foldl
        (fun acc q => if q.1 = key then some q.2 else acc)
        (acc.map (fun v => String.mk (pyStripCharsL (· = '"') v)))
      = (kvs.foldl (fun acc q => if q.1 = key.data then some q.2 else acc) acc).map
          (fun v => String.mk (pyStripCharsL (· = '"') v)) by
    simpa using h none
  induction kvs with
  | nil => intro acc; simp
  | cons p ps ih =>
    intro acc
    rw [List.map_cons, List.foldl_cons, List.foldl_cons]
    by_cases hpk : p.1 = key.data
    · have h1 : String.mk p.1 = key := String.ext hpk
      rw [if_pos h1, if_pos hpk]
      exact ih (some p.2)
    · rw [if_neg (fun h => hpk (String.ext_iff.mp h)), if_neg hpk]
      exact ih acc

lemma dictGet_loop_mem {κ α : Type} [DecidableEq κ] (k : κ) :
    ∀ (m : List (κ × α)) (acc : Option α) (v : α),
    m.foldl (fun acc p => if p.1 = k then some p.2 else acc) acc = some v →
    (k, v) ∈ m ∨ acc = some v := by
  intro m
  induction m with
  | nil =>
    intro acc v h
    right
    simpa using h
  | cons p ps ih =>
    intro acc v h
    rw [List.foldl_cons] at h
    rcases ih _ v h with hmem | hacc
    · exact Or.inl (List.mem_cons_of_mem _ hmem)
    · by_cases hpk : p.1 = k
      · rw [if_pos hpk] at hacc
        left
        have : p = (k, v) := by
          obtain ⟨p1, p2⟩ := p
          simp only [Option.some.injEq] at hacc
          simp_all
        rw [← this]
        exact List.mem_cons_self p ps
      · rw [if_neg hpk] at hacc
        exact Or.inr hacc

lemma dictGet_mem {κ α : Type} [DecidableEq κ] {m : List (κ × α)} {k : κ} {v : α}
    (h : dictGet m k = some v) : (k, v) ∈ m := by
  rcases dictGet_loop_mem k m none v h with hmem | habs
  · exact hmem
  · cases habs

lemma specStripQuotes_of_bare {v : List Char} (h1 : v.head? ≠ some '"')
    (h2 : v.getLast? ≠ some '"') : specStripQuotes v = v := by
  cases v with
  | nil => rfl
  | cons a t =>
    have ha : a ≠ '"' := by simpa using h1
    unfold specStripQuotes
    split
    · rename_i rest heq
      exact absurd (List.head_eq_of_cons_eq heq) ha
    · rfl

lemma pyStrip_eq_specStrip {v : List Char} (h : WfValue v) :
    pyStripCharsL (· = '"') v = specStripQuotes v := by
  rcases h with ⟨h1, h2⟩ | ⟨hlen, hh, hl, hih, hil⟩
  · -- bare value: both sides are the identity
    have e1 : v.dropWhile (fun c => decide (c = '"')) = v := by
      apply dropWhile_head_false
      intro x hx
      simp only [decide_eq_false_iff_not]
      intro hbad
      exact h1 (hbad ▸ hx)
    have e2 : v.reverse.dropWhile (fun c => decide (c = '"')) = v.reverse := by
      apply dropWhile_head_false
      intro x hx
      rw [List.head?_reverse] at hx
      simp only [decide_eq_false_iff_not]
      intro hbad
      exact h2 (hbad ▸ hx)
    unfold pyStripCharsL
    rw [e1, e2, List.reverse_reverse, specStripQuotes_of_bare h1 h2]
  · -- quoted value: v = '"' :: (w ++ ['"']) with w quote-free at both ends
    cases v with
    | nil => cases hh
    | cons a t =>
      have ha : a = '"' := by simpa using hh
      subst ha
      have ht_ne : t ≠ [] := by
        intro hte
        subst hte
        simp at hlen
      obtain ⟨x, hx⟩ : ∃ x, t.getLast? = some x := by
        cases hgl : t.getLast? with
        | none => exact absurd (List.getLast?_eq_none_iff.mp hgl) ht_ne
        | some y => exact ⟨y, rfl⟩
      have ht : t.dropLast ++ [x] = t := List.dropLast_append_getLast? x hx
      have hx_quote : x = '"' := by
        rw [← ht] at hl
        rw [show ('"' :: (t.dropLast ++ [x])).getLast? = ((('"' :: t.dropLast) ++ [x])).getLast?
            from rfl, List.getLast?_concat] at hl
        exact Option.some.inj hl
      subst hx_quote
      have hw_head : t.dropLast.head? ≠ some '"' := by simpa using hih
      have hw_last : t.dropLast.getLast? ≠ some '"' := by simpa using hil
      -- compute both sides on '"' :: (w ++ ['"'])
      rw [← ht]
      unfold pyStripCharsL
      rw [List.dropWhile_cons, if_pos (by simp)]
      cases hwc : t.dropLast with
      | nil =>
        simp only [List.nil_append]
        rfl
      | cons c w' =>
        have hc : c ≠ '"' := by
          rw [hwc] at hw_head
          simpa using hw_head
        have e1 : ((c :: w') ++ ['"']).dropWhile (fun ch => decide (ch = '"'))
            = (c :: w') ++ ['"'] := by
          apply dropWhile_head_false
          intro y hy
          simp only [List.cons_append, List.head?_cons, Option.some.injEq] at hy
          simp [← hy, hc]
        have e2 : ((c :: w') ++ ['"']).reverse = '"' :: (c :: w').reverse := by
          simp
        have e3 : ('"' :: (c :: w').reverse).dropWhile (fun ch => decide (ch = '"'))
            = (c :: w').reverse := by
          rw [List.dropWhile_cons, if_pos (by simp)]
          apply dropWhile_head_false
          intro y hy
          rw [List.head?_reverse] at hy
          rw [hwc] at hw_last
          simp only [decide_eq_false_iff_not]
          intro hbad
          exact hw_last (hbad ▸ hy)
        rw [e1, e2, e3, List.reverse_reverse]
        unfold specStripQuotes
        split
        · rename_i rest heq
          have hrest : rest = (c :: w') ++ ['"'] := (List.tail_eq_of_cons_eq heq).symm
          rw [hrest, show ((c :: w') ++ ['"']).getLast? = some '"' from List.getLast?_concat _,
            if_pos rfl, List.dropLast_concat]
        · rename_i hne
          exact absurd rfl (hne ((c :: w') ++ ['"']))

/-- Claim C4: for every well-formed key=value os-release text (each line
`key=value` with `=`-free keys and values that are bare or wrapped in one
pair of double quotes), the probe returns the `PRETTY_NAME` value verbatim
with its surrounding quotes stripped; when `PRETTY_NAME` is absent and both
`NAME` and `VERSION` are present it returns `NAME`, one space, and
`VERSION`. -/
theorem c4_os_identity (content : String) (kvs : List (List Char × List Char))
    (lsb : Option (Int × String))
    (hsplit : splitLines content = kvs.map (fun p => String.mk (p.1 ++ '=' :: p.2)))
    (hkeys : ∀ p ∈ kvs, '=' ∉ p.1)
    (hwf : ∀ p ∈ kvs, WfValue p.2) :
    (∀ v : List Char, dictGet kvs ("PRETTY_NAME".data) = some v →
        Linux.get_os_info (some content) lsb = String.mk (specStripQuotes v))
    ∧ (dictGet kvs ("PRETTY_NAME".data) = none →
        ∀ n ver : List Char, dictGet kvs ("NAME".data) = some n →
          dictGet kvs ("VERSION".data) = some ver →
          Linux.get_os_info (some content) lsb
            = String.mk (specStripQuotes n) ++ " " ++ String.mk (specStripQuotes ver)) := by
  have hparse := parseOsRelease_eq content kvs hsplit hkeys
  constructor
  · intro v hv
    simp only [Linux.get_os_info, hparse, dictGet_map_mk, hv, Option.map_some']
    exact congrArg String.mk (pyStrip_eq_specStrip (hwf _ (dictGet_mem hv)))
  · intro hnone n ver hn hver
    simp only [Linux.get_os_info, hparse, dictGet_map_mk, hnone, hn, hver,
      Option.map_some', Option.map_none']
    rw [pyStrip_eq_specStrip (hwf _ (dictGet_mem hn)),
      pyStrip_eq_specStrip (hwf _ (dictGet_mem hver))]

/-- Claim C4 witness: `NAME=Foo`/`VERSION=1` alone yield exactly `Foo 1`, and
a quoted `PRETTY_NAME` is returned with its quotes stripped. -/
theorem c4_os_identity_witness :
    Linux.get_os_info (some "NAME=Foo\nVERSION=1") none = "Foo 1"
    ∧ Linux.get_os_info (some "PRETTY_NAME=\"Arch Linux\"\nNAME=Arch") none
        = "Arch Linux" := by
  constructor
  · exact ((c4_os_identity "NAME=Foo\nVERSION=1"
      [("NAME".data, "Foo".data), ("VERSION".data, "1".data)] none
      (by decide) (by decide) (by decide)).2 (by decide) "Foo".data "1".data
      (by decide) (by decide)).trans (by decide)
  · exact ((c4_os_identity "PRETTY_NAME=\"Arch Linux\"\nNAME=Arch"
      [("PRETTY_NAME".data, "\"Arch Linux\"".data), ("NAME".data, "Arch".data)] none
      (by decide) (by decide) (by decide)).1 "\"Arch Linux\"".data
      (by decide)).trans (by decide)

lemma pyRound1_fifty : pyRound1 ((50 : ℚ) * 1024 ^ 3 / 1024 ^ 3) = 50 := by
  rw [show ((50 : ℚ) * 1024 ^ 3 / 1024 ^ 3) = 50 by norm_num]
  unfold pyRound1 rhe
  rw [show ((10 : ℚ) * 50) = ((500 : ℤ) : ℚ) by norm_num, Int.floor_intCast]
  norm_num

/-- Claim C5 counterexample: a mount record with filesystem type `ext4` and
total size exactly 50 GB is nevertheless *excluded* when its device is
`/dev/loop0`, because the virtual-device prefix filter runs regardless of
filesystem type — refuting "a record with filesystem type ext4 and total
size 50 GB is always included". -/
theorem c5_ext4_loop_excluded_cex :
    Linux.get_disk_info (some ["/dev/loop0 /mnt/img ext4 rw 0 0"])
      (fun _ => some (13107200, 4096, 6553600)) = [] := by
  with_unfolding_all decide

/-- Claim C5 as amended: a record whose third field is `tmpfs` is excluded
regardless of device or mount point; a record with filesystem type `ext4`
and computed total size 50 GB is included *provided* its device does not
start with `/dev/loop`, `udev` or `none` and the capacity query succeeds;
and a record whose computed total size is below the 0.1 GB threshold is
excluded no matter what its filesystem type is. -/
theorem c5_mount_filtering_amended :
    (∀ (sv : String → Option (Nat × Nat × Nat)) (line : String),
        (splitWs line).getD 2 "" = "tmpfs" →
        Linux.processMountLine sv line = none)
    ∧ (∀ (sv : String → Option (Nat × Nat × Nat)) (line device mp opts : String)
          (rest : List String) (b fr bf : Nat),
        splitWs line = device :: mp :: "ext4" :: opts :: rest →
        "/dev/loop".data.isPrefixOf device.data = false →
        "udev".data.isPrefixOf device.data = false →
        "none".data.isPrefixOf device.data = false →
        sv mp = some (b, fr, bf) →
        ((b * fr : Nat) : ℚ) = 50 * 1024 ^ 3 →
        (Linux.processMountLine sv line).map Linux.DiskEntry.fs_type = some "ext4"
        ∧ (Linux.processMountLine sv line).map Linux.DiskEntry.total_gb = some 50
        ∧ (Linux.processMountLine sv line).map Linux.DiskEntry.mount_point = some mp)
    ∧ (∀ (sv : String → Option (Nat × Nat × Nat)) (line : String) (b fr bf : Nat),
        sv ((splitWs line).getD 1 "") = some (b, fr, bf) →
        ((b * fr : Nat) : ℚ) / (1024 ^ 3 : ℚ) < 1/10 →
        Linux.processMountLine sv line = none) := by
  refine ⟨?_, ?_, ?_⟩
  · intro sv line h
    simp only [Linux.processMountLine, h]
    split
    · split
      · rfl
      · exact absurd (by decide : ("tmpfs" : String) ∈ Linux.special_fs) (by assumption)
    · rfl
  · intro sv line device mp opts rest b fr bf hsplit hp1 hp2 hp3 hsv htot
    have e0 : (device :: mp :: "ext4" :: opts :: rest).getD 0 "" = device := rfl
    have e1 : (device :: mp :: "ext4" :: opts :: rest).getD 1 "" = mp := rfl
    have e2 : (device :: mp :: "ext4" :: opts :: rest).getD 2 "" = "ext4" := rfl
    have hproc : Linux.processMountLine sv line
        = some ⟨mp, "ext4", pyRound1 (((b * fr : Nat) : ℚ) / (1024 ^ 3 : ℚ)),
                pyRound1 (((bf * fr : Nat) : ℚ) / (1024 ^ 3 : ℚ))⟩ := by
      simp only [Linux.processMountLine, hsplit, e0, e1, e2]
      rw [if_pos (by simp)]
      rw [if_neg (by decide)]
      rw [if_neg (by simp [hp1, hp2, hp3])]
      simp only [hsv]
      rw [if_neg (by rw [htot]; norm_num)]
    rw [hproc]
    refine ⟨rfl, ?_, rfl⟩
    rw [Option.map_some']
    have heq : pyRound1 (((b * fr : Nat) : ℚ) / (1024 ^ 3 : ℚ)) = 50 := by
      rw [htot, pyRound1_fifty]
    show some (pyRound1 (((b * fr : Nat) : ℚ) / (1024 ^ 3 : ℚ))) = some 50
    rw [heq]
  · intro sv line b fr bf hsv hlt
    simp only [Linux.processMountLine]
    split
    · split
      · rfl
      · split
        · rfl
        · simp only [hsv]
          rw [if_pos hlt]
    · rfl

/-- Claim C5 witness: concrete records — a tmpfs record is excluded, an ext4
50 GB record on a real device is included with total 50, and a sub-0.1 GB
record of a non-excluded type is excluded. -/
theorem c5_mount_filtering_amended_witness :
    Linux.processMountLine (fun _ => some (13107200, 4096, 6553600))
        "tmpfs /run tmpfs rw 0 0" = none
    ∧ (Linux.processMountLine (fun _ => some (13107200, 4096, 6553600))
        "/dev/sda1 / ext4 rw 0 0").map Linux.DiskEntry.total_gb = some 50
    ∧ Linux.processMountLine (fun _ => some (26214, 4096, 100))
        "/dev/sdb1 /data vfat rw 0 0" = none :=
  ⟨c5_mount_filtering_amended.1 _ _ (by decide),
   (c5_mount_filtering_amended.2.1 _ "/dev/sda1 / ext4 rw 0 0" "/dev/sda1" "/" "rw"
      ["0", "0"] 13107200 4096 6553600 (by decide) (by decide) (by decide) (by decide)
      rfl (by norm_num)).2.1,
   c5_mount_filtering_amended.2.2 _ "/dev/sdb1 /data vfat rw 0 0" 26214 4096 100
      rfl (by norm_num)⟩

/-- Claim C8 witness: concrete Windows releases hit the `10` table entry, the
non-Windows marker, and the synthesized fallback respectively. -/
theorem c8_windows_version_witness :
    Win.get_windows_version (.ok ("Windows", "10", "10.0.19045")) = "Windows 10 or Greater"
    ∧ Win.get_windows_version (.ok ("Linux", "6.1", "x")) = "Not Windows"
    ∧ Win.get_windows_version (.ok ("Windows", "XP", "5.1")) = "Windows XP (5.1)" :=
  ⟨(c8_windows_version "10" "10.0.19045" "" "Windows").2.2.1 (by decide),
   (c8_windows_version "6.1" "x" "" "Linux").2.1 (by decide),
   ((c8_windows_version "XP" "5.1" "" "Windows").2.2.2 (by decide)).trans (by decide)⟩
